import Mathlib

/-!
Verification of the outbox/inbox reliability layer of the
`fastapibuildingblocks` repository.

The development shallowly embeds the Python sources:
  - `src/fastapi_building_blocks/infrastructure/persistence/outbox.py`
    (`OutboxMessage`, `OutboxRepository`)
  - `src/fastapi_building_blocks/infrastructure/persistence/inbox.py`
    (`InboxMessage`, `InboxRepository`)
  - `src/building_blocks/domain/events/integration_event.py`
    (`IntegrationEvent.get_topic_name`, `get_partition_key`)
  - `src/building_blocks/infrastructure/messaging/inbox_consumer.py`
    (`InboxIntegrationEventConsumer`)
  - `src/fastapi_building_blocks/infrastructure/messaging/outbox_relay.py`
    (`OutboxRelay._process_batch`)
  - `src/building_blocks/infrastructure/messaging/kafka_consumer.py`
    (`KafkaIntegrationEventConsumer._consume_loop`, `_send_to_dlq`)

Modelling conventions:
  - UUIDs are modelled as `Nat`; `datetime` values as `Nat` (a discrete
    time-line; only ordering and addition of durations are used);
  - a database table is a `List` of rows; a SQLAlchemy session is a pair of
    the committed table (`db`) and the session's current working view
    (`tx`); `commit` makes `db := tx`; `rollback` makes `tx := db`;
  - Python exceptions are modelled with `Except String`; a step of the
    consumer that can raise is driven by an explicit fault flag;
  - broker and database network faults are represented by those same flags;
    scheduling of concurrent replicas is represented by running the pure
    repository operations one after another on the shared table.
-/

/-! ## Outbox store (fastapi_building_blocks/infrastructure/persistence/outbox.py) -/

/-- Status of an outbox message (`OutboxStatus` in the source). -/
inductive OutboxStatus
  | pending
  | published
  | failed
deriving DecidableEq

/-- One row of the `outbox_messages` table (`OutboxMessage` in the source).
Field names and nullability follow the SQLAlchemy column declarations;
`attempt_count` is the SQLAlchemy `Integer` column. -/
structure OutboxMessage where
  id : Nat
  event_id : Nat
  event_type : String
  event_version : String
  topic : String
  partition_key : Option String
  payload : String
  headers : Option String
  correlation_id : Option Nat
  causation_id : Option Nat
  status : OutboxStatus
  created_at : Nat
  published_at : Option Nat
  locked_until : Option Nat
  attempt_count : Nat
  last_error : Option String
  source_service : Option String
  aggregate_id : Option Nat
deriving DecidableEq

/-- Update the first element of a list satisfying `p` by `f` and leave the
rest unchanged.  This is how the repository methods that `select ... .first()`
(or `scalar_one_or_none`) and then mutate the fetched ORM object act on the
table; with unique primary keys at most one row matches anyway. -/
def updateFirst (p : α → Bool) (f : α → α) : List α → List α
  | [] => []
  | x :: xs => if p x then f x :: xs else x :: updateFirst p f xs

namespace OutboxRepository

/-- The WHERE clause of `get_pending_messages`: `status == PENDING` and
(`locked_until` is null or `locked_until < now`). -/
def pendingFilter (now : Nat) (m : OutboxMessage) : Bool :=
  m.status == OutboxStatus.pending &&
    (match m.locked_until with
     | none => true
     | some t => decide (t < now))

/-- The claim applied to each selected row: `message.locked_until = lock_until`. -/
def claimRow (lock_until : Nat) (m : OutboxMessage) : OutboxMessage :=
  { m with locked_until := some lock_until }

/-- Embedding of `OutboxRepository.get_pending_messages`.  The rows with
`status = pending` whose lock is absent or expired are ordered by
`created_at` (a stable sort models the SQL ORDER BY), the first `limit` of
them are selected, and each selected row is claimed by setting
`locked_until := now + lock_duration_seconds`.  The result is the returned
batch (the mutated ORM objects, as the caller sees them) together with the
updated session table.  The `with_for_update(skip_locked=True)` row lock has
no observable effect inside a single session and is not modelled; the
inter-replica consequence is proved from the `locked_until` updates.
`selectedRows` is the SELECT part of the query. -/
def selectedRows (table : List OutboxMessage) (limit : Nat) (now : Nat) :
    List OutboxMessage :=
  (List.insertionSort (fun a b => a.created_at ≤ b.created_at)
    (table.filter (pendingFilter now))).take limit

/-- The table after the selected rows have been claimed. -/
def claimedTable (table : List OutboxMessage) (limit : Nat)
    (lock_duration_seconds : Nat) (now : Nat) : List OutboxMessage :=
  table.map (fun m =>
    if (selectedRows table limit now).any (fun s => s.id == m.id) then
      claimRow (now + lock_duration_seconds) m
    else m)

/-- Embedding of the full `get_pending_messages` call: the claimed batch as
returned to the caller, paired with the updated session table. -/
def get_pending_messages (table : List OutboxMessage) (limit : Nat)
    (lock_duration_seconds : Nat) (now : Nat) :
    List OutboxMessage × List OutboxMessage :=
  ((selectedRows table limit now).map (claimRow (now + lock_duration_seconds)),
   claimedTable table limit lock_duration_seconds now)

/-- Embedding of `OutboxRepository.mark_as_published`: fetch the row by `id`
(`.first()`), and if present set `status := published` and
`published_at := now`; if no row matches, nothing changes. -/
def mark_as_published (table : List OutboxMessage) (message_id : Nat)
    (now : Nat) : List OutboxMessage :=
  updateFirst (fun m => m.id == message_id)
    (fun m => { m with status := OutboxStatus.published, published_at := some now })
    table

/-- The mutation `mark_as_failed` performs on the fetched row: increment
`attempt_count`, record `last_error`, clear `locked_until`, and set
`status := failed` exactly when the incremented count has reached
`max_attempts`. -/
def markFailedUpdate (error : String) (max_attempts : Nat)
    (m : OutboxMessage) : OutboxMessage :=
  let m1 : OutboxMessage :=
    { m with attempt_count := m.attempt_count + 1,
             last_error := some error,
             locked_until := none }
  if max_attempts ≤ m1.attempt_count then
    { m1 with status := OutboxStatus.failed }
  else m1

/-- Embedding of `OutboxRepository.mark_as_failed`: fetch the row by `id` and
apply `markFailedUpdate`; if no row matches, nothing changes. -/
def mark_as_failed (table : List OutboxMessage) (message_id : Nat)
    (error : String) (max_attempts : Nat) : List OutboxMessage :=
  updateFirst (fun m => m.id == message_id) (markFailedUpdate error max_attempts) table

end OutboxRepository

/-! ## Inbox store (fastapi_building_blocks/infrastructure/persistence/inbox.py) -/

/-- Status of an inbox message (`InboxStatus` in the source). -/
inductive InboxStatus
  | processing
  | processed
  | failed
deriving DecidableEq

/-- One row of the `inbox_messages` table (`InboxMessage` in the source).
The primary key is `message_id`.  Note that in the source `partition`,
`offset` and `attempt_count` are `String` columns. -/
structure InboxMessage where
  message_id : Nat
  event_type : String
  event_version : String
  topic : String
  partition : String
  offset : String
  correlation_id : Option Nat
  status : InboxStatus
  received_at : Nat
  processed_at : Option Nat
  locked_until : Option Nat
  attempt_count : String
  last_error : Option String
  handler_name : Option String
  payload : Option String
deriving DecidableEq

/-- Model of Python's `int(...)` on the nonnegative decimal strings the
inbox stores in `attempt_count` (`"0"` at insertion, `str(n)` afterwards):
`none` models the `ValueError` raised on any other string.  Spelled over
the character list so that concrete inputs evaluate inside the kernel. -/
def pyInt? (s : String) : Option Nat :=
  if s.data.isEmpty then none
  else if s.data.all (fun c => '0' ≤ c && c ≤ '9') then
    some (s.data.foldl (fun n c => n * 10 + (c.toNat - '0'.toNat)) 0)
  else none

namespace InboxRepository

/-- Embedding of `InboxRepository.is_duplicate`: a select by primary key
followed by `scalar_one_or_none`, returning whether a row exists. -/
def is_duplicate (table : List InboxMessage) (message_id : Nat) : Bool :=
  (table.find? (fun m => m.message_id == message_id)).isSome

/-- Embedding of `InboxRepository.add`: build an `InboxMessage` with
`status := processing`, stringified broker coordinates and the column
defaults (`event_version = "1.0"`, `attempt_count = "0"`,
`received_at = now`), and add it to the session. -/
def add (table : List InboxMessage) (message_id : Nat) (event_type : String)
    (topic : String) (partition : Nat) (offset : Nat)
    (correlation_id : Option Nat) (handler_name : Option String)
    (payload : Option String) (now : Nat) : List InboxMessage :=
  table ++ [{ message_id := message_id
              event_type := event_type
              event_version := "1.0"
              topic := topic
              partition := toString partition
              offset := toString offset
              correlation_id := correlation_id
              status := InboxStatus.processing
              received_at := now
              processed_at := none
              locked_until := none
              attempt_count := "0"
              last_error := none
              handler_name := handler_name
              payload := payload }]

/-- Embedding of `InboxRepository.mark_as_processed`: fetch by primary key;
if present set `status := processed` and `processed_at := now`; if absent,
nothing changes. -/
def mark_as_processed (table : List InboxMessage) (message_id : Nat)
    (now : Nat) : List InboxMessage :=
  updateFirst (fun m => m.message_id == message_id)
    (fun m => { m with status := InboxStatus.processed, processed_at := some now })
    table

/-- The mutation `mark_as_failed` performs on the fetched row:
`attempt_count = str(int(attempt_count) + 1)`, record the error, set
`status := failed` unconditionally (no attempt threshold), and clear
`locked_until`.  Python's `int` raises on a non-decimal string; every row
the code creates stores a decimal string (`"0"` at insertion, `toString`
afterwards), so the `getD 0` default is never exercised on reachable rows,
and the theorems take the successful parse (`pyInt?`) as a hypothesis. -/
def markFailedUpdate (error : String) (m : InboxMessage) : InboxMessage :=
  { m with attempt_count := toString ((pyInt? m.attempt_count).getD 0 + 1),
           last_error := some error,
           status := InboxStatus.failed,
           locked_until := none }

/-- Embedding of `InboxRepository.mark_as_failed`: fetch by primary key and
apply `markFailedUpdate`; if no row matches, nothing changes. -/
def mark_as_failed (table : List InboxMessage) (message_id : Nat)
    (error : String) : List InboxMessage :=
  updateFirst (fun m => m.message_id == message_id) (markFailedUpdate error) table

end InboxRepository

/-! ## Integration events (building_blocks/domain/events/integration_event.py) -/

/-- The integration event payload (`IntegrationEvent` in the source),
restricted to the routing fields the claims are about. -/
structure IntegrationEvent where
  event_id : Nat
  occurred_at : Nat
  event_type : String
  event_version : String
  correlation_id : Option Nat
  causation_id : Option Nat
  source_service : Option String
  aggregate_id : Option Nat
  aggregate_type : Option String
deriving DecidableEq

/-- ASCII upper-case test, the character class `[A-Z]` of the source regex. -/
def isAsciiUpper (c : Char) : Bool := 'A' ≤ c && c ≤ 'Z'

/-- ASCII lower-case test, the character class `[a-z]` of the source regex. -/
def isAsciiLower (c : Char) : Bool := 'a' ≤ c && c ≤ 'z'

/-- The character class `[a-z0-9]` of the second source regex. -/
def isAsciiLowerOrDigit (c : Char) : Bool :=
  isAsciiLower c || ('0' ≤ c && c ≤ '9')

/-- First pass of `get_topic_name`'s CamelCase conversion, Python's
`re.sub('(.)([A-Z][a-z]+)', r'\1_\2', name)`: scanning left to right, a
character followed by an upper-case letter and a maximal non-empty run of
lower-case letters has an underscore inserted after it, and scanning resumes
after the matched run.  The `fuel` argument (initially the length of the
input, which the recursion never exhausts) only makes the recursion
structural. -/
def camelSub1Fuel : Nat → List Char → List Char
  | 0, l => l
  | _ + 1, [] => []
  | _ + 1, [c] => [c]
  | fuel + 1, c :: u :: rest =>
    if isAsciiUpper u && !(rest.takeWhile isAsciiLower).isEmpty then
      c :: '_' :: u ::
        (rest.takeWhile isAsciiLower ++ camelSub1Fuel fuel (rest.dropWhile isAsciiLower))
    else
      c :: camelSub1Fuel fuel (u :: rest)

/-- First regex pass at its natural fuel. -/
def camelSub1 (l : List Char) : List Char := camelSub1Fuel l.length l

/-- Second pass, Python's `re.sub('([a-z0-9])([A-Z])', r'\1_\2', name)`:
an underscore is inserted between a lower-case letter or digit and an
upper-case letter; scanning resumes after the upper-case letter (which, being
upper case, could not start a later match in any case). -/
def camelSub2 : List Char → List Char
  | [] => []
  | [c] => [c]
  | c :: u :: rest =>
    if isAsciiLowerOrDigit c && isAsciiUpper u then
      c :: '_' :: u :: camelSub2 rest
    else
      c :: camelSub2 (u :: rest)

/-- The CamelCase to snake_case conversion inside
`IntegrationEvent.get_topic_name`: the two regex substitutions followed by
`.lower()`. -/
def camel_to_snake (s : String) : String :=
  String.mk ((camelSub2 (camelSub1 s.data)).map Char.toLower)

namespace IntegrationEvent

/-- Embedding of `IntegrationEvent.get_topic_name`. -/
def get_topic_name (e : IntegrationEvent) : String :=
  "integration-events." ++ camel_to_snake e.event_type

/-- Embedding of `IntegrationEvent.get_partition_key`: `str(aggregate_id)`
when the aggregate id is set (a `UUID` object is always truthy), `None`
otherwise. -/
def get_partition_key (e : IntegrationEvent) : Option String :=
  match e.aggregate_id with
  | some a => some (toString a)
  | none => none

end IntegrationEvent

/-! ## Envelope and broker messages -/

/-- The wire envelope (`IntegrationEventEnvelope` in the source).  The
serialized event body is kept opaque as `payloadJson`. -/
structure IntegrationEventEnvelope where
  event_id : Nat
  event_type : String
  event_version : String
  occurred_at : Nat
  correlation_id : Option Nat
  causation_id : Option Nat
  source_service : Option String
  payloadJson : String
deriving DecidableEq

/-- Model of `IntegrationEventEnvelope.to_json` (pydantic `model_dump_json`):
a rendering of the envelope that the consumer stores in the inbox row's
`payload` column; no claim inspects its exact shape. -/
def IntegrationEventEnvelope.to_json (env : IntegrationEventEnvelope) : String :=
  "\x7b\"event_id\": " ++ toString env.event_id ++
    ", \"event_type\": \"" ++ env.event_type ++
    "\", \"payload\": " ++ env.payloadJson ++ "\x7d"

/-- A message delivered by the broker.  `value` is the result of
deserializing the JSON body into an envelope; `none` models a body on which
`IntegrationEventEnvelope(**message.value)` raises. -/
structure KafkaMessage where
  topic : String
  partition : Nat
  offset : Nat
  value : Option IntegrationEventEnvelope
deriving DecidableEq

/-! ## Inbox consumer (building_blocks/infrastructure/messaging/inbox_consumer.py) -/

/-- A database session over the inbox table: `db` is the committed table,
`tx` the session's working view. -/
structure InboxSession where
  db : List InboxMessage
  tx : List InboxMessage
deriving DecidableEq

/-- Commit: the working view becomes durable. -/
def InboxSession.commit (s : InboxSession) : InboxSession :=
  { db := s.tx, tx := s.tx }

/-- Rollback: the working view is reset to the committed table. -/
def InboxSession.rollback (s : InboxSession) : InboxSession :=
  { db := s.db, tx := s.db }

/-- Fault flags driving the steps of one message-processing run that can
raise in the source: event deserialization (`event_class(**envelope.payload)`),
the inbox insert, the handler invocation, `mark_as_processed`, and
`session.commit` (a failing commit is taken to be persistent within the run,
so the commit attempted inside the `except` block fails as well). -/
structure RunFaults where
  event_deser_fails : Bool
  add_fails : Bool
  handler_fails : Bool
  mark_processed_fails : Bool
  commit_fails : Bool
deriving DecidableEq

/-- The configuration of `InboxIntegrationEventConsumer` the processing path
depends on: the handler registry (event type name to handler class name),
`store_payload`, and `enable_inbox`. -/
structure InboxConsumer where
  handlers : List (String × String)
  store_payload : Bool
  enable_inbox : Bool
deriving DecidableEq

/-- Outcome of one `_process_message_with_inbox` call: the session it leaves
behind, the ids of the events actually passed to a handler, and whether the
call returned normally or raised. -/
structure ProcResult where
  session : InboxSession
  handled : List Nat
  result : Except String Unit

namespace InboxIntegrationEventConsumer

/-- The body of the `except` clause of `_process_message_with_inbox`: roll
back, re-parse the envelope (if that fails the inner error is only logged),
`mark_as_failed` the event id, try to commit, and re-raise the original
exception. -/
def exceptPath (f : RunFaults) (msg : KafkaMessage) (s : InboxSession)
    (handled : List Nat) (err : String) : ProcResult :=
  match msg.value with
  | none => { session := s.rollback, handled := handled, result := .error err }
  | some env =>
    if f.commit_fails then
      { session := { db := s.rollback.db,
                     tx := InboxRepository.mark_as_failed s.rollback.tx env.event_id err },
        handled := handled, result := .error err }
    else
      { session := InboxSession.commit
          { db := s.rollback.db,
            tx := InboxRepository.mark_as_failed s.rollback.tx env.event_id err },
        handled := handled, result := .error err }

/-- Embedding of `_process_message_direct`, the inbox-disabled path: no
duplicate detection and no inbox row; the handler runs and the session is
committed right away, and any exception is re-raised. -/
def process_message_direct (c : InboxConsumer) (f : RunFaults)
    (msg : KafkaMessage) (s : InboxSession) : ProcResult :=
  match msg.value with
  | none => { session := s, handled := [], result := .error "envelope deserialization failed" }
  | some env =>
    match c.handlers.find? (fun h => h.1 == env.event_type) with
    | none => { session := s, handled := [], result := .ok () }
    | some _ =>
      if f.event_deser_fails then
        { session := s, handled := [], result := .error "event deserialization failed" }
      else if f.handler_fails then
        { session := s, handled := [env.event_id], result := .error "handler failed" }
      else if f.commit_fails then
        { session := s, handled := [env.event_id], result := .error "commit failed" }
      else
        { session := s.commit, handled := [env.event_id], result := .ok () }

/-- The working view of the session right after the `InboxRepository.add`
step of `_process_message_with_inbox`: the inbox row for the envelope is
appended, carrying the handler class name and, when `store_payload` is set,
the serialized envelope. -/
def addedTx (c : InboxConsumer) (env : IntegrationEventEnvelope)
    (msg : KafkaMessage) (handlerName : String) (now : Nat)
    (tx : List InboxMessage) : List InboxMessage :=
  InboxRepository.add tx env.event_id env.event_type msg.topic msg.partition
    msg.offset env.correlation_id (some handlerName)
    (if c.store_payload then some env.to_json else none) now

/-- Embedding of `_process_message_with_inbox`.  The steps mirror the source
in order: route to the direct path when the inbox is disabled; deserialize
the envelope; duplicate check; handler lookup (warn and return when absent);
event deserialization; `InboxRepository.add`; handler invocation;
`mark_as_processed`; `session.commit`.  Any raising step diverts to
`exceptPath`. -/
def process_message_with_inbox (c : InboxConsumer) (f : RunFaults) (now : Nat)
    (msg : KafkaMessage) (s : InboxSession) : ProcResult :=
  if !c.enable_inbox then process_message_direct c f msg s
  else
    match msg.value with
    | none => exceptPath f msg s [] "envelope deserialization failed"
    | some env =>
      if InboxRepository.is_duplicate s.tx env.event_id then
        { session := s, handled := [], result := .ok () }
      else
        match c.handlers.find? (fun h => h.1 == env.event_type) with
        | none => { session := s, handled := [], result := .ok () }
        | some handler =>
          if f.event_deser_fails then
            exceptPath f msg s [] "event deserialization failed"
          else if f.add_fails then
            exceptPath f msg s [] "inbox add failed"
          else if f.handler_fails then
            exceptPath f msg { db := s.db, tx := addedTx c env msg handler.2 now s.tx }
              [env.event_id] "handler failed"
          else if f.mark_processed_fails then
            exceptPath f msg { db := s.db, tx := addedTx c env msg handler.2 now s.tx }
              [env.event_id] "mark processed failed"
          else if f.commit_fails then
            exceptPath f msg
              { db := s.db,
                tx := InboxRepository.mark_as_processed
                  (addedTx c env msg handler.2 now s.tx) env.event_id now }
              [env.event_id] "commit failed"
          else
            { session := InboxSession.commit
                { db := s.db,
                  tx := InboxRepository.mark_as_processed
                    (addedTx c env msg handler.2 now s.tx) env.event_id now },
              handled := [env.event_id], result := .ok () }

/-- Outcome of one iteration of `_consume_loop` for one message: the
exception (if any) is caught and logged, and the broker offset is committed
exactly when processing returned normally. -/
structure LoopStep where
  session : InboxSession
  handled : List Nat
  offsetCommitted : Bool

/-- Embedding of the per-message body of
`InboxIntegrationEventConsumer._consume_loop`. -/
def consume_loop_step (c : InboxConsumer) (f : RunFaults) (now : Nat)
    (msg : KafkaMessage) (s : InboxSession) : LoopStep :=
  match (process_message_with_inbox c f now msg s).result with
  | .ok _ =>
    { session := (process_message_with_inbox c f now msg s).session,
      handled := (process_message_with_inbox c f now msg s).handled,
      offsetCommitted := true }
  | .error _ =>
    { session := (process_message_with_inbox c f now msg s).session,
      handled := (process_message_with_inbox c f now msg s).handled,
      offsetCommitted := false }

end InboxIntegrationEventConsumer

/-! ## Outbox relay (fastapi_building_blocks/infrastructure/messaging/outbox_relay.py) -/

/-- A database session over the outbox table. -/
structure OutboxSession where
  db : List OutboxMessage
  tx : List OutboxMessage
deriving DecidableEq

/-- Commit: the working view becomes durable. -/
def OutboxSession.commit (s : OutboxSession) : OutboxSession :=
  { db := s.tx, tx := s.tx }

/-- The relay configuration fields `_process_batch` depends on. -/
structure OutboxRelay where
  batch_size : Nat
  max_attempts : Nat
deriving DecidableEq

namespace OutboxRelay

/-- One iteration of the per-row loop of `_process_batch`: publish the row
to the broker (`publish` gives the outcome of `_publish_message` for each
row id); on success `mark_as_published`, on a raised exception the `except`
clause records the failure via `mark_as_failed` with the relay's
`max_attempts` and the loop moves on. -/
def rowStep (relay : OutboxRelay) (now : Nat)
    (publish : Nat → Except String Unit)
    (tx : List OutboxMessage) (m : OutboxMessage) : List OutboxMessage :=
  match publish m.id with
  | .ok _ => OutboxRepository.mark_as_published tx m.id now
  | .error e => OutboxRepository.mark_as_failed tx m.id e relay.max_attempts

/-- Result of one `_process_batch` call: the session it leaves behind and
the publish attempts it made, in loop order. -/
structure BatchResult where
  session : OutboxSession
  attempts : List (Nat × Except String Unit)

/-- The per-row loop of `OutboxRelay._process_batch` (the source passes
`lock_duration_seconds=300` when claiming): fold over the claimed batch,
accumulating the table and the trace of publish attempts. -/
def batchRun (relay : OutboxRelay) (now : Nat)
    (publish : Nat → Except String Unit) (batch : List OutboxMessage)
    (tx : List OutboxMessage) :
    List OutboxMessage × List (Nat × Except String Unit) :=
  batch.foldl
    (fun (acc : List OutboxMessage × List (Nat × Except String Unit)) m =>
      (rowStep relay now publish acc.1 m, acc.2 ++ [(m.id, publish m.id)]))
    (tx, [])

/-- Embedding of `OutboxRelay._process_batch` proper: claim the batch, return
early when it is empty, otherwise run the per-row loop over it and commit the
session once at the end. -/
def process_batch (relay : OutboxRelay) (now : Nat)
    (publish : Nat → Except String Unit) (s : OutboxSession) : BatchResult :=
  if (OutboxRepository.get_pending_messages s.tx relay.batch_size 300 now).1.isEmpty then
    { session :=
        { db := s.db,
          tx := (OutboxRepository.get_pending_messages s.tx relay.batch_size 300 now).2 },
      attempts := [] }
  else
    { session :=
        { db := (batchRun relay now publish
            (OutboxRepository.get_pending_messages s.tx relay.batch_size 300 now).1
            (OutboxRepository.get_pending_messages s.tx relay.batch_size 300 now).2).1,
          tx := (batchRun relay now publish
            (OutboxRepository.get_pending_messages s.tx relay.batch_size 300 now).1
            (OutboxRepository.get_pending_messages s.tx relay.batch_size 300 now).2).1 },
      attempts := (batchRun relay now publish
        (OutboxRepository.get_pending_messages s.tx relay.batch_size 300 now).1
        (OutboxRepository.get_pending_messages s.tx relay.batch_size 300 now).2).2 }

end OutboxRelay

/-! ## Direct Kafka consumer (building_blocks/infrastructure/messaging/kafka_consumer.py) -/

/-- The configuration fields of `KafkaConfig` that `_consume_loop` uses. -/
structure KafkaConfig where
  max_retry_attempts : Nat
  enable_dlq : Bool
  dlq_topic_suffix : String
deriving DecidableEq

/-- State threaded through `KafkaIntegrationEventConsumer._consume_loop`:
the in-memory `retry_counts` map keyed by (topic, partition, offset), the
broker offsets committed so far, the messages this consumer has produced to
a dead-letter topic, and the error log.  The consumer owns no producer, so
nothing in the embedded code ever appends to `dlq_produced`; the field
exists so that the absence of dead-letter production is expressible. -/
structure DirectConsumerState where
  retry_counts : List ((String × Nat × Nat) × Nat)
  committed : List (String × Nat × Nat)
  dlq_produced : List (String × String)
  logs : List String
deriving DecidableEq

/-- Lookup in the retry-count map, defaulting to 0 (`retry_counts.get(key, 0)`). -/
def rcGet (rc : List ((String × Nat × Nat) × Nat)) (k : String × Nat × Nat) : Nat :=
  match rc.find? (fun p => p.1 == k) with
  | some p => p.2
  | none => 0

/-- Store a retry count (`retry_counts[key] = n`). -/
def rcSet (rc : List ((String × Nat × Nat) × Nat)) (k : String × Nat × Nat)
    (n : Nat) : List ((String × Nat × Nat) × Nat) :=
  (rc.filter (fun p => !(p.1 == k))) ++ [(k, n)]

/-- Remove a key (`retry_counts.pop(key, None)`). -/
def rcRemove (rc : List ((String × Nat × Nat) × Nat)) (k : String × Nat × Nat) :
    List ((String × Nat × Nat) × Nat) :=
  rc.filter (fun p => !(p.1 == k))

namespace KafkaIntegrationEventConsumer

/-- Embedding of `KafkaIntegrationEventConsumer._send_to_dlq`.  Faithful to
the source, which holds no producer instance and only logs the dead-letter
topic name it computes ("This would require a producer instance - for now
just log"): the state's `dlq_produced` is untouched. -/
def send_to_dlq (cfg : KafkaConfig) (msg : KafkaMessage) (error : String)
    (st : DirectConsumerState) : DirectConsumerState :=
  let dlq_topic := msg.topic ++ cfg.dlq_topic_suffix
  { st with logs := st.logs ++
      ["Max retries exceeded, message should be sent to DLQ: " ++ dlq_topic ++
        " error " ++ error] }

/-- Embedding of the per-message body of
`KafkaIntegrationEventConsumer._consume_loop`.  `proc` is the outcome of
`_process_message` for this delivery.  On success the offset is committed
and the retry entry dropped; on failure the retry count is incremented, and
once it reaches `max_retry_attempts` the message is handed to `_send_to_dlq`
(when `enable_dlq` is set) and the offset is committed to advance past it. -/
def consume_step (cfg : KafkaConfig) (msg : KafkaMessage)
    (proc : Except String Unit) (st : DirectConsumerState) : DirectConsumerState :=
  let key := (msg.topic, msg.partition, msg.offset)
  match proc with
  | .ok _ =>
    { st with committed := st.committed ++ [key],
              retry_counts := rcRemove st.retry_counts key }
  | .error e =>
    let retry_count := rcGet st.retry_counts key + 1
    if cfg.max_retry_attempts ≤ retry_count then
      let st1 := if cfg.enable_dlq then send_to_dlq cfg msg e st else st
      { st1 with committed := st1.committed ++ [key],
                 retry_counts := rcRemove st1.retry_counts key }
    else
      { st with retry_counts := rcSet st.retry_counts key retry_count }

end KafkaIntegrationEventConsumer

/-! ## Derived row updates and order instances -/

/-- The net effect of one relay loop iteration on the row it processed:
published on success, `markFailedUpdate` with the relay's `max_attempts` on
a publish failure. -/
def OutboxRelay.rowUpdate (relay : OutboxRelay) (now : Nat)
    (publish : Nat → Except String Unit) (m : OutboxMessage) : OutboxMessage :=
  match publish m.id with
  | .ok _ => { m with status := OutboxStatus.published, published_at := some now }
  | .error e => OutboxRepository.markFailedUpdate e relay.max_attempts m

instance : IsTotal OutboxMessage (fun a b => a.created_at ≤ b.created_at) :=
  ⟨fun a b => Nat.le_total a.created_at b.created_at⟩

instance : IsTrans OutboxMessage (fun a b => a.created_at ≤ b.created_at) :=
  ⟨fun _ _ _ h h' => Nat.le_trans h h'⟩

/-! ## Concrete fixtures used by witnesses and counterexamples -/

/-- Outbox row builder with fixed routing fields; only the fields the
claims vary are parameters. -/
def outboxRow (i : Nat) (st : OutboxStatus) (created : Nat)
    (lock : Option Nat) (attempts : Nat) : OutboxMessage :=
  { id := i, event_id := 100 + i, event_type := "UserCreated",
    event_version := "1.0", topic := "integration-events.user_created",
    partition_key := some "7", payload := "pay", headers := none,
    correlation_id := none, causation_id := none, status := st,
    created_at := created, published_at := none, locked_until := lock,
    attempt_count := attempts, last_error := none, source_service := none,
    aggregate_id := some 7 }

/-- An already-failed outbox row with a small attempt count. -/
def cexFailedRow : OutboxMessage := outboxRow 1 OutboxStatus.failed 10 none 0

/-- A pending outbox row holding a live lease. -/
def cexLeasedRow : OutboxMessage :=
  outboxRow 1 OutboxStatus.pending 10 (some 100) 0

/-- A pending, unlocked outbox row created at time 10. -/
def pendRow1 : OutboxMessage := outboxRow 1 OutboxStatus.pending 10 none 0

/-- A second pending, unlocked outbox row created at time 20. -/
def pendRow2 : OutboxMessage := outboxRow 2 OutboxStatus.pending 20 none 0

/-- Outbox session over the two pending rows. -/
def relaySession : OutboxSession :=
  { db := [pendRow1, pendRow2], tx := [pendRow1, pendRow2] }

/-- Relay fixture matching the constructor defaults. -/
def relayFix : OutboxRelay := { batch_size := 100, max_attempts := 3 }

/-- A publish outcome function failing exactly on row id 1. -/
def publishFailOn1 (i : Nat) : Except String Unit :=
  if i == 1 then Except.error "boom" else Except.ok ()

/-- Envelope fixture for a `UserCreated` event. -/
def envUser : IntegrationEventEnvelope :=
  { event_id := 100, event_type := "UserCreated", event_version := "1.0",
    occurred_at := 1, correlation_id := none, causation_id := none,
    source_service := none, payloadJson := "x" }

/-- Envelope fixture for an event type without a registered handler. -/
def envOrder : IntegrationEventEnvelope :=
  { envUser with event_id := 200, event_type := "OrderCreated" }

/-- Delivered message carrying `envUser`. -/
def msgUser : KafkaMessage :=
  { topic := "integration-events.user_created", partition := 0, offset := 5,
    value := some envUser }

/-- Delivered message carrying `envOrder`. -/
def msgOrder : KafkaMessage :=
  { topic := "integration-events.order_created", partition := 0, offset := 6,
    value := some envOrder }

/-- An inbox row for `envUser`'s event id, as left by a completed run. -/
def inboxRowUser : InboxMessage :=
  { message_id := 100, event_type := "UserCreated", event_version := "1.0",
    topic := "integration-events.user_created", partition := "0",
    offset := "4", correlation_id := none, status := InboxStatus.processed,
    received_at := 0, processed_at := some 1, locked_until := none,
    attempt_count := "0", last_error := none,
    handler_name := some "UserCreatedHandler", payload := none }

/-- Session whose inbox already holds `envUser`'s event id. -/
def sessionDup : InboxSession := { db := [inboxRowUser], tx := [inboxRowUser] }

/-- Session over an empty inbox. -/
def sessionEmpty : InboxSession := { db := [], tx := [] }

/-- Consumer fixture with a handler registered for `UserCreated` only. -/
def consumerFix : InboxConsumer :=
  { handlers := [("UserCreated", "UserCreatedHandler")],
    store_payload := true, enable_inbox := true }

/-- Fault-free run. -/
def faultsNone : RunFaults :=
  { event_deser_fails := false, add_fails := false, handler_fails := false,
    mark_processed_fails := false, commit_fails := false }

/-- Run whose handler invocation raises. -/
def faultsHandler : RunFaults := { faultsNone with handler_fails := true }

/-- Direct-consumer config fixture: DLQ enabled, one retry, default suffix. -/
def kafkaCfgFix : KafkaConfig :=
  { max_retry_attempts := 1, enable_dlq := true, dlq_topic_suffix := ".dlq" }

/-- Fresh direct-consumer state. -/
def dcState0 : DirectConsumerState :=
  { retry_counts := [], committed := [], dlq_produced := [], logs := [] }

/-- Integration event fixture used for routing derivation. -/
def evUser : IntegrationEvent :=
  { event_id := 100, occurred_at := 1, event_type := "UserCreated",
    event_version := "1.0", correlation_id := none, causation_id := none,
    source_service := none, aggregate_id := some 7,
    aggregate_type := some "User" }


deriving instance DecidableEq for Except

/-! ## General lemmas about `updateFirst` and keyed lookups -/

/-- A keyed update with no matching row leaves the table unchanged. -/
theorem updateFirst_no_match {α : Type} (key : α → Nat) (f : α → α) (j : Nat)
    (l : List α) (h : ∀ x ∈ l, key x ≠ j) :
    updateFirst (fun m => key m == j) f l = l := by
  induction l with
  | nil => rfl
  | cons x xs ih =>
    have hx : (key x == j) = false := by
      simpa using h x (List.mem_cons_self x xs)
    simp [updateFirst, hx, ih (fun y hy => h y (List.mem_cons_of_mem x hy))]

/-- A key-preserving update of the row keyed `j` does not change lookups of
a different key `i`. -/
theorem find?_updateFirst_ne {α : Type} (key : α → Nat) (f : α → α)
    (hf : ∀ a, key (f a) = key a) (i j : Nat) (hij : i ≠ j) (l : List α) :
    (updateFirst (fun m => key m == j) f l).find? (fun m => key m == i)
      = l.find? (fun m => key m == i) := by
  induction l with
  | nil => rfl
  | cons x xs ih =>
    by_cases hxj : key x = j
    · have h1 : (key x == j) = true := by simpa using hxj
      have h2 : (key (f x) == i) = false := by
        simp only [hf, hxj, beq_eq_false_iff_ne, ne_eq]
        exact fun h => hij h.symm
      have h3 : (key x == i) = false := by
        simp only [hxj, beq_eq_false_iff_ne, ne_eq]
        exact fun h => hij h.symm
      simp [updateFirst, h1, List.find?_cons_of_neg, h2, h3]
    · have h1 : (key x == j) = false := by simpa using hxj
      by_cases hxi : key x = i
      · have h2 : (key x == i) = true := by simpa using hxi
        simp [updateFirst, h1, List.find?_cons_of_pos, h2]
      · have h2 : (key x == i) = false := by simpa using hxi
        simp [updateFirst, h1, List.find?_cons_of_neg, h2, ih]

/-- Looking up the updated key after a key-preserving `updateFirst` returns
the updated row. -/
theorem find?_updateFirst_eq {α : Type} (key : α → Nat) (f : α → α)
    (hf : ∀ a, key (f a) = key a) (j : Nat) (l : List α) :
    (updateFirst (fun m => key m == j) f l).find? (fun m => key m == j)
      = (l.find? (fun m => key m == j)).map f := by
  induction l with
  | nil => rfl
  | cons x xs ih =>
    by_cases hxj : key x = j
    · have h1 : (key x == j) = true := by simpa using hxj
      have h2 : (key (f x) == j) = true := by simp [hf, hxj]
      simp [updateFirst, h1, List.find?_cons_of_pos, h2]
    · have h1 : (key x == j) = false := by simpa using hxj
      simp [updateFirst, h1, List.find?_cons_of_neg, ih]

/-- In a table with distinct keys, mapping a key-preserving function and
looking up a member's key returns that member's image. -/
theorem find?_map_key {α : Type} (key : α → Nat) (g : α → α)
    (hg : ∀ a, key (g a) = key a) (l : List α) (o : α) (ho : o ∈ l)
    (hnd : (l.map key).Nodup) :
    (l.map g).find? (fun x => key x == key o) = some (g o) := by
  induction l with
  | nil => cases ho
  | cons x xs ih =>
    rw [List.map_cons] at hnd
    have hnd' := List.nodup_cons.mp hnd
    rcases List.mem_cons.mp ho with rfl | ho'
    · have h2 : (key (g o) == key o) = true := by simp [hg]
      simp [List.find?_cons_of_pos, h2]
    · have hxo : key x ≠ key o := fun h => hnd'.1 (h ▸ List.mem_map_of_mem key ho')
      have h1 : ¬ ((key (g x) == key o) = true) := by
        simp [hg, hxo]
      rw [List.map_cons]
      exact (List.find?_cons_of_neg (p := fun y => key y == key o) (List.map g xs) h1).trans
        (ih ho' hnd'.2)

/-! ## Lemmas about the pending-batch selection -/

namespace OutboxRepository

/-- Decoding of the WHERE clause of `get_pending_messages`. -/
theorem pendingFilter_iff (now : Nat) (m : OutboxMessage) :
    pendingFilter now m = true ↔
      m.status = OutboxStatus.pending ∧
        (m.locked_until = none ∨ ∃ t, m.locked_until = some t ∧ t < now) := by
  unfold pendingFilter
  cases h : m.locked_until with
  | none => simp [h]
  | some t => simp [h]

/-- Selected rows come from the table and satisfy the WHERE clause. -/
theorem mem_selectedRows {table : List OutboxMessage} {limit now : Nat}
    {o : OutboxMessage} (ho : o ∈ selectedRows table limit now) :
    o ∈ table ∧ pendingFilter now o = true := by
  unfold selectedRows at ho
  have h1 := List.mem_of_mem_take ho
  have h2 := (List.perm_insertionSort _ _).mem_iff.mp h1
  exact ⟨(List.mem_filter.mp h2).1, (List.mem_filter.mp h2).2⟩

/-- Members of the returned batch are claimed versions of eligible table
rows. -/
theorem mem_batch {table : List OutboxMessage} {limit dur now : Nat}
    {b : OutboxMessage}
    (hb : b ∈ (get_pending_messages table limit dur now).1) :
    ∃ o, o ∈ table ∧ pendingFilter now o = true
      ∧ o ∈ selectedRows table limit now ∧ b = claimRow (now + dur) o := by
  unfold get_pending_messages at hb
  rcases List.mem_map.mp hb with ⟨o, ho, rfl⟩
  exact ⟨o, (mem_selectedRows ho).1, (mem_selectedRows ho).2, ho, rfl⟩

/-- The batch has at most `limit` rows. -/
theorem batch_length_le (table : List OutboxMessage) (limit dur now : Nat) :
    (get_pending_messages table limit dur now).1.length ≤ limit := by
  unfold get_pending_messages selectedRows
  simp only [List.length_map]
  exact List.length_take_le _ _

/-- The batch is ordered oldest first by `created_at`. -/
theorem batch_sorted (table : List OutboxMessage) (limit dur now : Nat) :
    (get_pending_messages table limit dur now).1.Pairwise
      (fun a b => a.created_at ≤ b.created_at) := by
  unfold get_pending_messages selectedRows
  refine (List.pairwise_map).2 ?_
  have hs : (List.insertionSort (fun a b : OutboxMessage => a.created_at ≤ b.created_at)
      (table.filter (pendingFilter now))).Pairwise
      (fun a b => a.created_at ≤ b.created_at) := by
    simpa [List.Sorted] using
      List.sorted_insertionSort (fun a b : OutboxMessage => a.created_at ≤ b.created_at)
        (table.filter (pendingFilter now))
  exact hs.sublist (List.take_sublist limit _)

/-- Ids of the selected rows are distinct when the table's are. -/
theorem selectedRows_ids_nodup {table : List OutboxMessage} {limit now : Nat}
    (hnd : (table.map (fun m => m.id)).Nodup) :
    ((selectedRows table limit now).map (fun m => m.id)).Nodup := by
  unfold selectedRows
  have h1 : ((table.filter (pendingFilter now)).map (fun m => m.id)).Nodup :=
    hnd.sublist ((List.filter_sublist table).map (fun m => m.id))
  have h2 : ((List.insertionSort (fun a b : OutboxMessage => a.created_at ≤ b.created_at)
      (table.filter (pendingFilter now))).map (fun m => m.id)).Nodup :=
    (((List.perm_insertionSort
        (fun a b : OutboxMessage => a.created_at ≤ b.created_at)
        (table.filter (pendingFilter now))).map
          (fun m : OutboxMessage => m.id)).nodup_iff).mpr h1
  exact h2.sublist
    ((List.take_sublist limit
      (List.insertionSort (fun a b : OutboxMessage => a.created_at ≤ b.created_at)
        (table.filter (pendingFilter now)))).map (fun m : OutboxMessage => m.id))

/-- Claiming preserves the table's key list. -/
theorem claimedTable_ids (table : List OutboxMessage) (limit dur now : Nat) :
    (claimedTable table limit dur now).map (fun m => m.id)
      = table.map (fun m => m.id) := by
  unfold claimedTable
  rw [List.map_map]
  refine List.map_congr_left ?_
  intro m _
  show (if (selectedRows table limit now).any (fun s => s.id == m.id)
        then claimRow (now + dur) m else m).id = m.id
  by_cases h : ((selectedRows table limit now).any (fun s => s.id == m.id)) = true
  · rw [if_pos h]; rfl
  · rw [if_neg h]

/-- Looking up a selected row's id in the claimed table returns its claimed
version. -/
theorem find?_claimedTable {table : List OutboxMessage} {limit dur now : Nat}
    (hnd : (table.map (fun m => m.id)).Nodup) {o : OutboxMessage}
    (ho : o ∈ selectedRows table limit now) :
    (claimedTable table limit dur now).find? (fun x => x.id == o.id)
      = some (claimRow (now + dur) o) := by
  unfold claimedTable
  have hg : ∀ a : OutboxMessage,
      (if (selectedRows table limit now).any (fun s => s.id == a.id)
       then claimRow (now + dur) a else a).id = a.id := by
    intro a
    by_cases h : ((selectedRows table limit now).any (fun s => s.id == a.id)) = true
    · rw [if_pos h]; rfl
    · rw [if_neg h]
  have hmem := (mem_selectedRows ho).1
  refine (find?_map_key (fun m => m.id) _ hg table o hmem hnd).trans ?_
  have hany : (selectedRows table limit now).any (fun s => s.id == o.id) = true :=
    List.any_eq_true.mpr ⟨o, ho, by simp⟩
  rw [if_pos hany]

/-- A claimed row is a member of the claimed table. -/
theorem claimRow_mem_claimedTable {table : List OutboxMessage}
    {limit dur now : Nat} {o : OutboxMessage}
    (ho : o ∈ selectedRows table limit now) :
    claimRow (now + dur) o ∈ claimedTable table limit dur now := by
  unfold claimedTable
  have hmem := (mem_selectedRows ho).1
  have hany : (selectedRows table limit now).any (fun s => s.id == o.id) = true :=
    List.any_eq_true.mpr ⟨o, ho, by simp⟩
  have hmap := List.mem_map_of_mem
    (fun m => if (selectedRows table limit now).any (fun s => s.id == m.id)
              then claimRow (now + dur) m else m) hmem
  have hgo : (fun m => if (selectedRows table limit now).any (fun s => s.id == m.id)
              then claimRow (now + dur) m else m) o = claimRow (now + dur) o :=
    if_pos hany
  rw [hgo] at hmap
  exact hmap

end OutboxRepository

/-! ## Lemmas about the relay's per-row loop -/

namespace OutboxRelay

/-- The failure update preserves the row id. -/
theorem markFailedUpdate_id (e : String) (k : Nat) (m : OutboxMessage) :
    (OutboxRepository.markFailedUpdate e k m).id = m.id := by
  simp only [OutboxRepository.markFailedUpdate]
  split <;> rfl

/-- A loop iteration for a row with a different id does not change lookups. -/
theorem find?_rowStep_ne (relay : OutboxRelay) (now : Nat)
    (publish : Nat → Except String Unit) (tx : List OutboxMessage)
    (m : OutboxMessage) (i : Nat) (hmi : i ≠ m.id) :
    (rowStep relay now publish tx m).find? (fun x => x.id == i)
      = tx.find? (fun x => x.id == i) := by
  unfold rowStep OutboxRepository.mark_as_published OutboxRepository.mark_as_failed
  cases publish m.id with
  | ok u =>
    exact find?_updateFirst_ne (fun x => x.id)
      (fun m => { m with status := OutboxStatus.published, published_at := some now })
      (fun a => rfl) i m.id hmi tx
  | error e =>
    exact find?_updateFirst_ne (fun x => x.id)
      (OutboxRepository.markFailedUpdate e relay.max_attempts)
      (markFailedUpdate_id e relay.max_attempts) i m.id hmi tx

/-- A loop iteration on a row stored under its own id rewrites that row to
its `rowUpdate`. -/
theorem find?_rowStep_eq (relay : OutboxRelay) (now : Nat)
    (publish : Nat → Except String Unit) (tx : List OutboxMessage)
    (m : OutboxMessage) (hfind : tx.find? (fun x => x.id == m.id) = some m) :
    (rowStep relay now publish tx m).find? (fun x => x.id == m.id)
      = some (rowUpdate relay now publish m) := by
  unfold rowStep rowUpdate OutboxRepository.mark_as_published
    OutboxRepository.mark_as_failed
  cases publish m.id with
  | ok u =>
    rw [find?_updateFirst_eq (fun x => x.id)
      (fun m => { m with status := OutboxStatus.published, published_at := some now })
      (fun a => rfl) m.id tx, hfind]
    rfl
  | error e =>
    rw [find?_updateFirst_eq (fun x => x.id)
      (OutboxRepository.markFailedUpdate e relay.max_attempts)
      (markFailedUpdate_id e relay.max_attempts) m.id tx, hfind]
    rfl

/-- Folding the loop over rows none of which has id `i` keeps lookups of `i`
unchanged. -/
theorem find?_fold_not_mem (relay : OutboxRelay) (now : Nat)
    (publish : Nat → Except String Unit) (bs : List OutboxMessage)
    (tx : List OutboxMessage) (i : Nat) (hi : ∀ b ∈ bs, b.id ≠ i) :
    (bs.foldl (rowStep relay now publish) tx).find? (fun x => x.id == i)
      = tx.find? (fun x => x.id == i) := by
  induction bs generalizing tx with
  | nil => rfl
  | cons b bs ih =>
    rw [List.foldl_cons, ih _ (fun y hy => hi y (List.mem_cons_of_mem b hy))]
    exact find?_rowStep_ne relay now publish tx b i
      (fun h => hi b (List.mem_cons_self b bs) h.symm)

/-- After the whole loop, each batch row's stored version is its
`rowUpdate`, provided the batch ids are distinct and each batch row is
initially stored under its own id. -/
theorem find?_fold_mem (relay : OutboxRelay) (now : Nat)
    (publish : Nat → Except String Unit) (bs : List OutboxMessage)
    (tx : List OutboxMessage) (m : OutboxMessage) (hm : m ∈ bs)
    (hnd : (bs.map (fun x => x.id)).Nodup)
    (hfind : ∀ b ∈ bs, tx.find? (fun x => x.id == b.id) = some b) :
    (bs.foldl (rowStep relay now publish) tx).find? (fun x => x.id == m.id)
      = some (rowUpdate relay now publish m) := by
  induction bs generalizing tx with
  | nil => cases hm
  | cons b bs ih =>
    rw [List.map_cons] at hnd
    have hnd' := List.nodup_cons.mp hnd
    rw [List.foldl_cons]
    rcases List.mem_cons.mp hm with rfl | hm'
    · rw [find?_fold_not_mem relay now publish bs _ m.id
        (fun y hy h => hnd'.1 (h ▸ List.mem_map_of_mem (fun x => x.id) hy))]
      exact find?_rowStep_eq relay now publish tx m (hfind m (List.mem_cons_self m bs))
    · refine ih (rowStep relay now publish tx b) hm' hnd'.2 ?_
      intro b' hb'
      have hne : b'.id ≠ b.id :=
        fun h => hnd'.1 (h ▸ List.mem_map_of_mem (fun x => x.id) hb')
      rw [find?_rowStep_ne relay now publish tx b b'.id hne]
      exact hfind b' (List.mem_cons_of_mem b hb')

/-- The paired fold of `process_batch` computes the plain fold of the table
together with the publish-attempt trace of every batch row in order. -/
theorem process_batch_fold (relay : OutboxRelay) (now : Nat)
    (publish : Nat → Except String Unit) (bs : List OutboxMessage)
    (tx : List OutboxMessage) (acc : List (Nat × Except String Unit)) :
    bs.foldl
      (fun (a : List OutboxMessage × List (Nat × Except String Unit)) m =>
        (rowStep relay now publish a.1 m, a.2 ++ [(m.id, publish m.id)]))
      (tx, acc)
      = (bs.foldl (rowStep relay now publish) tx,
         acc ++ bs.map (fun m => (m.id, publish m.id))) := by
  induction bs generalizing tx acc with
  | nil => simp
  | cons b bs ih => simp [List.foldl_cons, ih]

end OutboxRelay

/-! ## Lemmas about the inbox consumer -/

namespace InboxIntegrationEventConsumer

/-- An id with no row makes `is_duplicate` false. -/
theorem is_duplicate_false {table : List InboxMessage} {i : Nat}
    (h : ∀ r ∈ table, r.message_id ≠ i) :
    InboxRepository.is_duplicate table i = false := by
  unfold InboxRepository.is_duplicate
  rw [List.find?_eq_none.mpr (fun x hx => by simpa using h x hx)]
  rfl

/-- On a base table holding no row for the message's event id, the `except`
clause always leaves a fully rolled-back session over that base table and
re-raises the original error. -/
theorem exceptPath_spec (f : RunFaults) (msg : KafkaMessage)
    (sb : InboxSession) (handled : List Nat) (err : String)
    (base : List InboxMessage) (hdb : sb.db = base)
    (hfresh : ∀ env, msg.value = some env →
      ∀ r ∈ base, r.message_id ≠ env.event_id) :
    (exceptPath f msg sb handled err).session = { db := base, tx := base }
    ∧ (exceptPath f msg sb handled err).handled = handled
    ∧ (exceptPath f msg sb handled err).result = Except.error err := by
  have hrb : sb.rollback = { db := base, tx := base } := by
    simp [InboxSession.rollback, hdb]
  cases hv : msg.value with
  | none => simp [exceptPath, hv, hrb]
  | some env =>
    have hmark : InboxRepository.mark_as_failed base env.event_id err = base := by
      unfold InboxRepository.mark_as_failed
      exact updateFirst_no_match (fun m => m.message_id) _ env.event_id base
        (hfresh env hv)
    cases hcf : f.commit_fails with
    | false => simp [exceptPath, hv, hrb, hcf, hmark, InboxSession.commit]
    | true => simp [exceptPath, hv, hrb, hcf, hmark]

/-- Master characterization of `_process_message_with_inbox` on a fresh
session (working view equal to the committed table) whose committed table
has no row for the delivered event id: the final session is always fully
committed or fully rolled back (`db = tx`), and on an error the committed
table is exactly the initial one. -/
theorem process_fresh_spec (c : InboxConsumer) (f : RunFaults) (now : Nat)
    (msg : KafkaMessage) (s : InboxSession)
    (hen : c.enable_inbox = true) (htx : s.tx = s.db)
    (hfresh : ∀ env, msg.value = some env →
      ∀ r ∈ s.db, r.message_id ≠ env.event_id) :
    (process_message_with_inbox c f now msg s).session.db
      = (process_message_with_inbox c f now msg s).session.tx
    ∧ (∀ e, (process_message_with_inbox c f now msg s).result = Except.error e →
        (process_message_with_inbox c f now msg s).session.db = s.db) := by
  unfold process_message_with_inbox
  rw [hen]
  simp only [Bool.not_true, Bool.false_eq_true, if_false]
  split
  next hv =>
    have h := exceptPath_spec f msg s [] "envelope deserialization failed" s.db rfl hfresh
    exact ⟨by rw [h.1], fun e _ => by rw [h.1]⟩
  next env hv =>
    have hdup : InboxRepository.is_duplicate s.tx env.event_id = false := by
      rw [htx]
      exact is_duplicate_false (hfresh env hv)
    rw [hdup]
    simp only [Bool.false_eq_true, if_false]
    split
    next hh => exact ⟨htx.symm, fun e he => Except.noConfusion he⟩
    next handler hh =>
      by_cases hde : f.event_deser_fails = true
      · rw [if_pos hde]
        have h := exceptPath_spec f msg s [] "event deserialization failed" s.db rfl hfresh
        exact ⟨by rw [h.1], fun e _ => by rw [h.1]⟩
      · rw [if_neg hde]
        by_cases haf : f.add_fails = true
        · rw [if_pos haf]
          have h := exceptPath_spec f msg s [] "inbox add failed" s.db rfl hfresh
          exact ⟨by rw [h.1], fun e _ => by rw [h.1]⟩
        · rw [if_neg haf]
          by_cases hhf : f.handler_fails = true
          · rw [if_pos hhf]
            have h := exceptPath_spec f msg
              { db := s.db, tx := addedTx c env msg handler.2 now s.tx }
              [env.event_id] "handler failed" s.db rfl hfresh
            exact ⟨by rw [h.1], fun e _ => by rw [h.1]⟩
          · rw [if_neg hhf]
            by_cases hmf : f.mark_processed_fails = true
            · rw [if_pos hmf]
              have h := exceptPath_spec f msg
                { db := s.db, tx := addedTx c env msg handler.2 now s.tx }
                [env.event_id] "mark processed failed" s.db rfl hfresh
              exact ⟨by rw [h.1], fun e _ => by rw [h.1]⟩
            · rw [if_neg hmf]
              by_cases hcf : f.commit_fails = true
              · rw [if_pos hcf]
                have h := exceptPath_spec f msg
                  { db := s.db,
                    tx := InboxRepository.mark_as_processed
                      (addedTx c env msg handler.2 now s.tx) env.event_id now }
                  [env.event_id] "commit failed" s.db rfl hfresh
                exact ⟨by rw [h.1], fun e _ => by rw [h.1]⟩
              · rw [if_neg hcf]
                exact ⟨rfl, fun e he => Except.noConfusion he⟩

end InboxIntegrationEventConsumer

/-! ## Claim theorems -/

/-- C8: `get_topic_name` is the string "integration-events." followed by the
CamelCase-to-snake_case conversion of `event_type` (checked on the spec's
concrete example), and `get_partition_key` is the string form of
`aggregate_id` when it is set and `none` otherwise, so two events with the
same `aggregate_id` always produce the same partition key. -/
theorem c8_routing_derivation (e e2 : IntegrationEvent) :
    IntegrationEvent.get_topic_name e
      = "integration-events." ++ camel_to_snake e.event_type
    ∧ (∀ a, e.aggregate_id = some a →
        IntegrationEvent.get_partition_key e = some (toString a))
    ∧ (e.aggregate_id = none → IntegrationEvent.get_partition_key e = none)
    ∧ (e.aggregate_id = e2.aggregate_id →
        IntegrationEvent.get_partition_key e
          = IntegrationEvent.get_partition_key e2)
    ∧ camel_to_snake "UserCreated" = "user_created" := by
  refine ⟨rfl, ?_, ?_, ?_, by decide⟩
  · intro a ha
    simp [IntegrationEvent.get_partition_key, ha]
  · intro ha
    simp [IntegrationEvent.get_partition_key, ha]
  · intro h
    simp [IntegrationEvent.get_partition_key, h]

/-- Witness for C8 at the `UserCreated` fixture. -/
theorem c8_routing_derivation_witness :
    IntegrationEvent.get_partition_key evUser = some "7"
    ∧ IntegrationEvent.get_topic_name evUser
        = "integration-events.user_created" := by
  refine ⟨(c8_routing_derivation evUser evUser).2.1 7 rfl, ?_⟩
  rw [(c8_routing_derivation evUser evUser).1]
  decide

/-- C6: evaluation of the direct consumer at a terminally failing delivery
(one allowed attempt, DLQ enabled).  The offset is committed to advance past
the message and the DLQ topic name `<topic>.dlq` appears in the log, but no
message is ever produced to the dead-letter topic: `_send_to_dlq` holds no
producer and only logs, so the inspectable, replayable DLQ artifact the
claim (and the class docstring's feature list) promises does not exist. -/
theorem c6_dlq_divergence :
    (KafkaIntegrationEventConsumer.consume_step kafkaCfgFix msgUser
        (Except.error "boom") dcState0).committed
      = [("integration-events.user_created", 0, 5)]
    ∧ (KafkaIntegrationEventConsumer.consume_step kafkaCfgFix msgUser
        (Except.error "boom") dcState0).dlq_produced = []
    ∧ (KafkaIntegrationEventConsumer.consume_step kafkaCfgFix msgUser
        (Except.error "boom") dcState0).logs
      = ["Max retries exceeded, message should be sent to DLQ: " ++
          "integration-events.user_created.dlq error boom"] := by
  refine ⟨?_, ?_, ?_⟩ <;> decide

namespace InboxIntegrationEventConsumer

/-- The loop step commits the offset exactly when processing returned
normally. -/
theorem offsetCommitted_iff (c : InboxConsumer) (f : RunFaults) (now : Nat)
    (msg : KafkaMessage) (s : InboxSession) :
    (consume_loop_step c f now msg s).offsetCommitted = true
      ↔ (process_message_with_inbox c f now msg s).result = Except.ok () := by
  unfold consume_loop_step
  split
  next u heq =>
    cases u
    simp [heq]
  next e heq =>
    simp [heq]

/-- The loop step does not commit the offset when processing raised. -/
theorem offsetCommitted_false_of_error (c : InboxConsumer) (f : RunFaults)
    (now : Nat) (msg : KafkaMessage) (s : InboxSession) (e : String)
    (he : (process_message_with_inbox c f now msg s).result = Except.error e) :
    (consume_loop_step c f now msg s).offsetCommitted = false := by
  unfold consume_loop_step
  split
  next u heq => rw [he] at heq; exact Except.noConfusion heq
  next e' heq => rfl

end InboxIntegrationEventConsumer

/-- C1: `InboxRepository.is_duplicate` is true exactly when a row with that
message id exists (whatever its status), and a delivery whose event id is a
duplicate is skipped entirely: the session is returned untouched (no inbox
row added), no handler is invoked, and no exception is raised. -/
theorem c1_duplicate_skip (c : InboxConsumer) (f : RunFaults) (now : Nat)
    (msg : KafkaMessage) (s : InboxSession) (env : IntegrationEventEnvelope)
    (hen : c.enable_inbox = true) (hv : msg.value = some env) :
    (InboxRepository.is_duplicate s.tx env.event_id = true
      ↔ ∃ r ∈ s.tx, r.message_id = env.event_id)
    ∧ (InboxRepository.is_duplicate s.tx env.event_id = true →
        (InboxIntegrationEventConsumer.process_message_with_inbox
            c f now msg s).session = s
        ∧ (InboxIntegrationEventConsumer.process_message_with_inbox
            c f now msg s).handled = []
        ∧ (InboxIntegrationEventConsumer.process_message_with_inbox
            c f now msg s).result = Except.ok ()) := by
  constructor
  · unfold InboxRepository.is_duplicate
    rw [List.find?_isSome]
    simp
  · intro hdup
    unfold InboxIntegrationEventConsumer.process_message_with_inbox
    rw [hen]
    simp only [Bool.not_true, Bool.false_eq_true, if_false]
    split
    next hv' => rw [hv] at hv'; exact Option.noConfusion hv'
    next env' hv' =>
      rw [hv] at hv'
      injection hv' with henv
      subst henv
      rw [hdup]
      simp

/-- Witness for C1: redelivering `envUser` to a session already holding an
inbox row for its event id is skipped. -/
theorem c1_duplicate_skip_witness :
    (InboxIntegrationEventConsumer.process_message_with_inbox consumerFix
        faultsNone 5 msgUser sessionDup).handled = []
    ∧ (InboxIntegrationEventConsumer.process_message_with_inbox consumerFix
        faultsNone 5 msgUser sessionDup).session = sessionDup
    ∧ InboxRepository.is_duplicate sessionDup.tx envUser.event_id = true := by
  have h := (c1_duplicate_skip consumerFix faultsNone 5 msgUser sessionDup
    envUser rfl rfl).2 (by decide)
  exact ⟨h.2.1, h.1, by decide⟩

/-- C7: a delivered message whose envelope event type has no registered
handler is skipped without raising: no handler runs, the session (hence the
inbox table) is unchanged, and the consume loop still commits the broker
offset, so the message is not treated as a failure. -/
theorem c7_unroutable_commits (c : InboxConsumer) (f : RunFaults) (now : Nat)
    (msg : KafkaMessage) (s : InboxSession) (env : IntegrationEventEnvelope)
    (hen : c.enable_inbox = true) (hv : msg.value = some env)
    (hnh : c.handlers.find? (fun h => h.1 == env.event_type) = none) :
    (InboxIntegrationEventConsumer.process_message_with_inbox
        c f now msg s).session = s
    ∧ (InboxIntegrationEventConsumer.process_message_with_inbox
        c f now msg s).handled = []
    ∧ (InboxIntegrationEventConsumer.process_message_with_inbox
        c f now msg s).result = Except.ok ()
    ∧ (InboxIntegrationEventConsumer.consume_loop_step
        c f now msg s).offsetCommitted = true := by
  have hmain : (InboxIntegrationEventConsumer.process_message_with_inbox
        c f now msg s).session = s
      ∧ (InboxIntegrationEventConsumer.process_message_with_inbox
          c f now msg s).handled = []
      ∧ (InboxIntegrationEventConsumer.process_message_with_inbox
          c f now msg s).result = Except.ok () := by
    unfold InboxIntegrationEventConsumer.process_message_with_inbox
    rw [hen]
    simp only [Bool.not_true, Bool.false_eq_true, if_false]
    split
    next hv' => rw [hv] at hv'; exact Option.noConfusion hv'
    next env' hv' =>
      rw [hv] at hv'
      injection hv' with henv
      subst henv
      by_cases hdup : InboxRepository.is_duplicate s.tx env.event_id = true
      · rw [hdup]
        simp
      · rw [Bool.not_eq_true] at hdup
        rw [hdup]
        simp only [Bool.false_eq_true, if_false]
        rw [hnh]
        exact ⟨rfl, rfl, rfl⟩
  exact ⟨hmain.1, hmain.2.1, hmain.2.2,
    (InboxIntegrationEventConsumer.offsetCommitted_iff c f now msg s).mpr hmain.2.2⟩

/-- Witness for C7: a message of unregistered type `OrderCreated` leaves the
session alone and the offset is committed. -/
theorem c7_unroutable_commits_witness :
    (InboxIntegrationEventConsumer.consume_loop_step consumerFix faultsNone 5
        msgOrder sessionEmpty).offsetCommitted = true
    ∧ (InboxIntegrationEventConsumer.process_message_with_inbox consumerFix
        faultsNone 5 msgOrder sessionEmpty).handled = [] := by
  have h := c7_unroutable_commits consumerFix faultsNone 5 msgOrder
    sessionEmpty envOrder rfl rfl (by decide)
  exact ⟨h.2.2.2, h.2.1⟩

/-- C2: atomicity of inbox processing on failure.  On a fresh session whose
committed table holds no row for the delivered event id, whenever any step
raises: the transaction is rolled back so that no committed inbox row for
that event id exists, and the consume loop does not commit the broker
offset.  The offset is committed exactly when processing returned normally,
and only with the session fully committed (`db = tx`). -/
theorem c2_atomic_failure (c : InboxConsumer) (f : RunFaults) (now : Nat)
    (msg : KafkaMessage) (s : InboxSession)
    (hen : c.enable_inbox = true) (htx : s.tx = s.db)
    (hfresh : ∀ env, msg.value = some env →
      ∀ r ∈ s.db, r.message_id ≠ env.event_id) :
    (∀ e, (InboxIntegrationEventConsumer.process_message_with_inbox
        c f now msg s).result = Except.error e →
      (∀ env, msg.value = some env →
        ∀ r ∈ (InboxIntegrationEventConsumer.process_message_with_inbox
            c f now msg s).session.db,
          r.message_id ≠ env.event_id)
      ∧ (InboxIntegrationEventConsumer.consume_loop_step
          c f now msg s).offsetCommitted = false)
    ∧ ((InboxIntegrationEventConsumer.consume_loop_step
        c f now msg s).offsetCommitted = true
      ↔ (InboxIntegrationEventConsumer.process_message_with_inbox
          c f now msg s).result = Except.ok ())
    ∧ ((InboxIntegrationEventConsumer.consume_loop_step
        c f now msg s).offsetCommitted = true →
      (InboxIntegrationEventConsumer.process_message_with_inbox
          c f now msg s).session.db
        = (InboxIntegrationEventConsumer.process_message_with_inbox
          c f now msg s).session.tx) := by
  have hspec := InboxIntegrationEventConsumer.process_fresh_spec
    c f now msg s hen htx hfresh
  refine ⟨?_, InboxIntegrationEventConsumer.offsetCommitted_iff c f now msg s,
    fun _ => hspec.1⟩
  intro e he
  refine ⟨?_,
    InboxIntegrationEventConsumer.offsetCommitted_false_of_error
      c f now msg s e he⟩
  intro env hv r hr
  rw [hspec.2 e he] at hr
  exact hfresh env hv r hr

/-- Witness for C2: a failing handler at the empty-session fixture leaves
the offset uncommitted. -/
theorem c2_atomic_failure_witness :
    (InboxIntegrationEventConsumer.consume_loop_step consumerFix faultsHandler
        5 msgUser sessionEmpty).offsetCommitted = false := by
  exact ((c2_atomic_failure consumerFix faultsHandler 5 msgUser sessionEmpty
      rfl rfl (by intro env hv r hr; simp [sessionEmpty] at hr)).1
    "handler failed" (by decide)).2

/-- C10: the inbox `mark_as_failed` has no attempt threshold: one call on an
existing row sets status `failed`, increments the string-encoded
`attempt_count` through integer parse and re-stringify, records the error
and clears `locked_until`; and on an absent row, inbox `mark_as_failed`,
`mark_as_processed` and outbox `mark_as_published` are silent no-ops (the
embedded operations are total, so nothing is raised). -/
theorem c10_inbox_mark_failed (table : List InboxMessage) (message_id : Nat)
    (error : String) (row : InboxMessage) (n : Nat)
    (hrow : table.find? (fun m => m.message_id == message_id) = some row)
    (hparse : pyInt? row.attempt_count = some n)
    (table2 : List InboxMessage) (mid2 now : Nat)
    (hnone : ∀ r ∈ table2, r.message_id ≠ mid2)
    (otable : List OutboxMessage) (oid onow : Nat)
    (honone : ∀ m ∈ otable, m.id ≠ oid) :
    (InboxRepository.mark_as_failed table message_id error).find?
        (fun m => m.message_id == message_id)
      = some { row with attempt_count := toString (n + 1),
                        last_error := some error,
                        status := InboxStatus.failed,
                        locked_until := none }
    ∧ InboxRepository.mark_as_failed table2 mid2 error = table2
    ∧ InboxRepository.mark_as_processed table2 mid2 now = table2
    ∧ OutboxRepository.mark_as_published otable oid onow = otable := by
  refine ⟨?_, ?_, ?_, ?_⟩
  · unfold InboxRepository.mark_as_failed
    have hkey : ∀ a : InboxMessage,
        (InboxRepository.markFailedUpdate error a).message_id = a.message_id :=
      fun a => rfl
    rw [find?_updateFirst_eq (fun m => m.message_id)
      (InboxRepository.markFailedUpdate error) hkey message_id table, hrow]
    unfold InboxRepository.markFailedUpdate
    simp [hparse]
  · unfold InboxRepository.mark_as_failed
    exact updateFirst_no_match (fun m => m.message_id) _ mid2 table2 hnone
  · unfold InboxRepository.mark_as_processed
    exact updateFirst_no_match (fun m => m.message_id) _ mid2 table2 hnone
  · unfold OutboxRepository.mark_as_published
    exact updateFirst_no_match (fun m => m.id) _ oid otable honone

/-- Witness for C10 at the stored `UserCreated` inbox row and empty tables. -/
theorem c10_inbox_mark_failed_witness :
    (InboxRepository.mark_as_failed [inboxRowUser] 100 "err").find?
        (fun m => m.message_id == 100)
      = some { inboxRowUser with
               attempt_count := "1", last_error := some "err",
               status := InboxStatus.failed, locked_until := none }
    ∧ InboxRepository.mark_as_failed [] 1 "err" = [] := by
  have h := c10_inbox_mark_failed [inboxRowUser] 100 "err" inboxRowUser 0
    (by decide) (by decide) [] 1 7 (by simp) [] 1 7 (by simp)
  exact ⟨h.1.trans (by decide), h.2.1⟩

/-- C3 counterexample: calling `OutboxRepository.mark_as_failed` with
`max_attempts = 2` on an existing row already in status `failed` with
`attempt_count = 0` yields a row whose status is `failed` while the
incremented count `1` is below `max_attempts = 2` — the claimed "status
becomes `failed` if and only if the incremented attempt_count ≥
max_attempts" fails at this input (the code never resets a status, it only
conditionally sets `failed`). -/
theorem c3_counterexample :
    ((OutboxRepository.mark_as_failed [cexFailedRow] 1 "err" 2).find?
        (fun m => m.id == 1)).map (fun m => (m.status, m.attempt_count))
      = some (OutboxStatus.failed, 1)
    ∧ ¬ (2 ≤ 1) := by decide

/-- C3 (amended): `mark_as_failed` on an existing row increments
`attempt_count` by exactly one and records the error; the status is set to
`failed` when the incremented count has reached `max_attempts` and is left
unchanged otherwise (in particular a `pending` row stays `pending`, and a
row already `failed` stays `failed`); and every row returned by
`get_pending_messages` has status `pending`, so a `failed` row is never
selected again. -/
theorem c3_bounded_retry (table : List OutboxMessage) (message_id : Nat)
    (error : String) (max_attempts : Nat) (row : OutboxMessage)
    (hrow : table.find? (fun m => m.id == message_id) = some row) :
    (OutboxRepository.mark_as_failed table message_id error max_attempts).find?
        (fun m => m.id == message_id)
      = some (OutboxRepository.markFailedUpdate error max_attempts row)
    ∧ (OutboxRepository.markFailedUpdate error max_attempts row).attempt_count
        = row.attempt_count + 1
    ∧ (OutboxRepository.markFailedUpdate error max_attempts row).last_error
        = some error
    ∧ (OutboxRepository.markFailedUpdate error max_attempts row).status
        = (if max_attempts ≤ row.attempt_count + 1 then OutboxStatus.failed
           else row.status)
    ∧ (∀ (t : List OutboxMessage) (lim d n : Nat),
        ∀ b ∈ (OutboxRepository.get_pending_messages t lim d n).1,
          b.status = OutboxStatus.pending) := by
  refine ⟨?_, ?_, ?_, ?_, ?_⟩
  · unfold OutboxRepository.mark_as_failed
    rw [find?_updateFirst_eq (fun m => m.id)
      (OutboxRepository.markFailedUpdate error max_attempts)
      (OutboxRelay.markFailedUpdate_id error max_attempts) message_id table,
      hrow]
    rfl
  · simp only [OutboxRepository.markFailedUpdate]
    split <;> rfl
  · simp only [OutboxRepository.markFailedUpdate]
    split <;> rfl
  · simp only [OutboxRepository.markFailedUpdate]
    split <;> rfl
  · intro t lim d n b hb
    rcases OutboxRepository.mem_batch hb with ⟨o, _, hp, _, rfl⟩
    exact ((OutboxRepository.pendingFilter_iff n o).mp hp).1

/-- Witness for C3 (amended): a pending row at its final allowed attempt
flips to `failed`. -/
theorem c3_bounded_retry_witness :
    (OutboxRepository.mark_as_failed
        [outboxRow 1 OutboxStatus.pending 10 none 2] 1 "err" 3).find?
        (fun m => m.id == 1)
      = some (OutboxRepository.markFailedUpdate "err" 3
          (outboxRow 1 OutboxStatus.pending 10 none 2))
    ∧ (OutboxRepository.markFailedUpdate "err" 3
        (outboxRow 1 OutboxStatus.pending 10 none 2)).status
      = OutboxStatus.failed := by
  have h := c3_bounded_retry [outboxRow 1 OutboxStatus.pending 10 none 2] 1
    "err" 3 (outboxRow 1 OutboxStatus.pending 10 none 2) (by decide)
  refine ⟨h.1, ?_⟩
  rw [h.2.2.2.1]
  decide

/-- C9 counterexample: a non-final `mark_as_failed` on a pending row holding
a live lease clears `locked_until` (from `some 100` to `none`) instead of
leaving it unchanged to expire naturally, refuting the claimed frame on
`locked_until`. -/
theorem c9_counterexample :
    cexLeasedRow.status = OutboxStatus.pending
    ∧ cexLeasedRow.locked_until = some 100
    ∧ cexLeasedRow.attempt_count + 1 < 3
    ∧ ((OutboxRepository.mark_as_failed [cexLeasedRow] 1 "err" 3).find?
        (fun m => m.id == 1)).map (fun m => m.locked_until) = some none := by
  decide

/-- C9 (amended): when the incremented count stays below `max_attempts` the
row's status is unchanged (a `pending` row stays `pending`) and every field
other than `attempt_count`, `last_error` and `locked_until` keeps its value;
`locked_until`, however, is cleared to null rather than left to expire, so a
pending row becomes eligible for retry immediately. -/
theorem c9_nonfinal_frame (table : List OutboxMessage) (message_id : Nat)
    (error : String) (max_attempts : Nat) (row : OutboxMessage)
    (hrow : table.find? (fun m => m.id == message_id) = some row)
    (hbelow : row.attempt_count + 1 < max_attempts) :
    (OutboxRepository.mark_as_failed table message_id error max_attempts).find?
        (fun m => m.id == message_id)
      = some { row with attempt_count := row.attempt_count + 1,
                        last_error := some error,
                        locked_until := none }
    ∧ ({ row with
         attempt_count := row.attempt_count + 1,
         last_error := some error,
         locked_until := none } : OutboxMessage).status = row.status
    ∧ (row.status = OutboxStatus.pending → ∀ n : Nat,
        OutboxRepository.pendingFilter n
          { row with attempt_count := row.attempt_count + 1,
                     last_error := some error, locked_until := none } = true) := by
  have hne : ¬ (max_attempts ≤ row.attempt_count + 1) := by omega
  have hupd : OutboxRepository.markFailedUpdate error max_attempts row
      = { row with attempt_count := row.attempt_count + 1,
                   last_error := some error, locked_until := none } := by
    simp only [OutboxRepository.markFailedUpdate]
    rw [if_neg hne]
  refine ⟨?_, rfl, ?_⟩
  · unfold OutboxRepository.mark_as_failed
    rw [find?_updateFirst_eq (fun m => m.id)
      (OutboxRepository.markFailedUpdate error max_attempts)
      (OutboxRelay.markFailedUpdate_id error max_attempts) message_id table,
      hrow]
    rw [show Option.map (OutboxRepository.markFailedUpdate error max_attempts)
        (some row) = some (OutboxRepository.markFailedUpdate error max_attempts row)
      from rfl, hupd]
  · intro hp n
    exact (OutboxRepository.pendingFilter_iff n _).mpr ⟨hp, Or.inl rfl⟩

/-- Witness for C9 (amended) at the leased pending row. -/
theorem c9_nonfinal_frame_witness :
    (OutboxRepository.mark_as_failed [cexLeasedRow] 1 "err" 3).find?
        (fun m => m.id == 1)
      = some { cexLeasedRow with
               attempt_count := 1, last_error := some "err",
               locked_until := none } := by
  have h := c9_nonfinal_frame [cexLeasedRow] 1 "err" 3 cexLeasedRow
    (by decide) (by decide)
  exact h.1.trans (by decide)

namespace OutboxRepository

/-- The second component of `get_pending_messages` is the claimed table. -/
theorem get_pending_snd (table : List OutboxMessage) (limit dur now : Nat) :
    (get_pending_messages table limit dur now).2
      = claimedTable table limit dur now := rfl

/-- Batch ids are distinct when the table's are. -/
theorem batch_ids_nodup {table : List OutboxMessage} {limit dur now : Nat}
    (hnd : (table.map (fun m => m.id)).Nodup) :
    (((get_pending_messages table limit dur now).1).map (fun m => m.id)).Nodup := by
  unfold get_pending_messages
  rw [List.map_map]
  exact selectedRows_ids_nodup hnd

end OutboxRepository

/-- C4: claim semantics of the pending-batch read.  The batch has at most
`limit` rows; every returned row is the claimed version (lock set to
`now + dur`) of a table row that was `pending` with a null or expired
`locked_until`; the batch is ordered oldest first by `created_at`; and a
second read of the updated table at any instant `now'` inside the lease
window returns no row with the id of an already-claimed one, so two relay
replicas never both claim the same row. -/
theorem c4_claim_semantics (table : List OutboxMessage)
    (limit dur now limit' dur' now' : Nat)
    (hnd : (table.map (fun m => m.id)).Nodup) (hwin : now' ≤ now + dur) :
    (OutboxRepository.get_pending_messages table limit dur now).1.length ≤ limit
    ∧ (∀ b ∈ (OutboxRepository.get_pending_messages table limit dur now).1,
        b.status = OutboxStatus.pending
        ∧ b.locked_until = some (now + dur)
        ∧ ∃ o ∈ table, o.status = OutboxStatus.pending
            ∧ (o.locked_until = none ∨ ∃ t, o.locked_until = some t ∧ t < now)
            ∧ b = OutboxRepository.claimRow (now + dur) o)
    ∧ (OutboxRepository.get_pending_messages table limit dur now).1.Pairwise
        (fun a b => a.created_at ≤ b.created_at)
    ∧ (∀ b ∈ (OutboxRepository.get_pending_messages table limit dur now).1,
        ∀ b2 ∈ (OutboxRepository.get_pending_messages
            (OutboxRepository.get_pending_messages table limit dur now).2
            limit' dur' now').1,
          b2.id ≠ b.id) := by
  refine ⟨OutboxRepository.batch_length_le table limit dur now, ?_,
    OutboxRepository.batch_sorted table limit dur now, ?_⟩
  · intro b hb
    rcases OutboxRepository.mem_batch hb with ⟨o, hoT, hoP, hoSel, rfl⟩
    have hdec := (OutboxRepository.pendingFilter_iff now o).mp hoP
    exact ⟨hdec.1, rfl, o, hoT, hdec.1, hdec.2, rfl⟩
  · intro b hb b2 hb2 hid
    rcases OutboxRepository.mem_batch hb with ⟨o, hoT, hoP, hoSel, rfl⟩
    rcases OutboxRepository.mem_batch hb2 with ⟨o2, ho2T, ho2P, _, rfl⟩
    rw [OutboxRepository.get_pending_snd] at ho2T
    have hbmem : OutboxRepository.claimRow (now + dur) o
        ∈ OutboxRepository.claimedTable table limit dur now :=
      OutboxRepository.claimRow_mem_claimedTable hoSel
    have hnd2 : ((OutboxRepository.claimedTable table limit dur now).map
        (fun m => m.id)).Nodup := by
      rw [OutboxRepository.claimedTable_ids]
      exact hnd
    have ho2eq : o2 = OutboxRepository.claimRow (now + dur) o :=
      List.inj_on_of_nodup_map hnd2 ho2T hbmem hid
    rw [ho2eq] at ho2P
    have hdec := (OutboxRepository.pendingFilter_iff now' _).mp ho2P
    rcases hdec.2 with hnone | ⟨t, ht, hlt⟩
    · exact Option.noConfusion hnone
    · have ht2 : some (now + dur) = some t := ht
      have ht' : now + dur = t := Option.some.inj ht2
      omega

/-- Witness for C4 at the two-pending-row fixture with limit 1. -/
theorem c4_claim_semantics_witness :
    (OutboxRepository.get_pending_messages [pendRow1, pendRow2] 1 60 50).1.length ≤ 1
    ∧ ∀ b ∈ (OutboxRepository.get_pending_messages [pendRow1, pendRow2] 1 60 50).1,
        b.status = OutboxStatus.pending := by
  have h := c4_claim_semantics [pendRow1, pendRow2] 1 60 50 1 60 50
    (by decide) (by omega)
  exact ⟨h.1, fun b hb => (h.2.1 b hb).1⟩

/-- C5: relay failure isolation.  `_process_batch` attempts every claimed
row of the batch in order whatever the publish outcomes are (a failure is
caught inside the per-row loop, so it never aborts the loop — the embedded
batch runner is total and its attempt trace always covers the whole batch);
each row ends up stored as its own `rowUpdate` — on a publish failure that
is `mark_as_failed` with the relay's `max_attempts` — and when the batch is
nonempty the session is committed exactly once at the end (`db = tx`),
after every row has been attempted. -/
theorem c5_relay_failure_isolation (relay : OutboxRelay) (now : Nat)
    (publish : Nat → Except String Unit) (s : OutboxSession)
    (hnd : (s.tx.map (fun m => m.id)).Nodup) :
    (OutboxRelay.process_batch relay now publish s).attempts
      = (OutboxRepository.get_pending_messages s.tx relay.batch_size 300 now).1.map
          (fun m => (m.id, publish m.id))
    ∧ ((OutboxRepository.get_pending_messages s.tx relay.batch_size 300 now).1 ≠ [] →
        (OutboxRelay.process_batch relay now publish s).session.db
          = (OutboxRelay.process_batch relay now publish s).session.tx)
    ∧ (∀ m ∈ (OutboxRepository.get_pending_messages s.tx relay.batch_size 300 now).1,
        (OutboxRelay.process_batch relay now publish s).session.tx.find?
            (fun x => x.id == m.id)
          = some (OutboxRelay.rowUpdate relay now publish m))
    ∧ (∀ m ∈ (OutboxRepository.get_pending_messages s.tx relay.batch_size 300 now).1,
        ∀ e, publish m.id = Except.error e →
          (OutboxRelay.process_batch relay now publish s).session.tx.find?
              (fun x => x.id == m.id)
            = some (OutboxRepository.markFailedUpdate e relay.max_attempts m)) := by
  have hfind : ∀ b ∈ (OutboxRepository.get_pending_messages s.tx
      relay.batch_size 300 now).1,
      (OutboxRepository.get_pending_messages s.tx relay.batch_size 300 now).2.find?
        (fun x => x.id == b.id) = some b := by
    intro b hb
    rcases OutboxRepository.mem_batch hb with ⟨o, _, _, hoSel, rfl⟩
    rw [OutboxRepository.get_pending_snd]
    exact OutboxRepository.find?_claimedTable (o := o) hnd hoSel
  by_cases hemp : (OutboxRepository.get_pending_messages s.tx
      relay.batch_size 300 now).1.isEmpty = true
  · have hnil : (OutboxRepository.get_pending_messages s.tx
        relay.batch_size 300 now).1 = [] := List.isEmpty_iff.mp hemp
    refine ⟨?_, ?_, ?_, ?_⟩
    · unfold OutboxRelay.process_batch
      rw [if_pos hemp, hnil]
      rfl
    · intro hne
      exact absurd hnil hne
    · intro m hm
      rw [hnil] at hm
      cases hm
    · intro m hm
      rw [hnil] at hm
      cases hm
  · have hpb : OutboxRelay.process_batch relay now publish s
        = { session :=
              { db := (OutboxRepository.get_pending_messages s.tx
                  relay.batch_size 300 now).1.foldl
                  (OutboxRelay.rowStep relay now publish)
                  (OutboxRepository.get_pending_messages s.tx
                    relay.batch_size 300 now).2,
                tx := (OutboxRepository.get_pending_messages s.tx
                  relay.batch_size 300 now).1.foldl
                  (OutboxRelay.rowStep relay now publish)
                  (OutboxRepository.get_pending_messages s.tx
                    relay.batch_size 300 now).2 },
            attempts := (OutboxRepository.get_pending_messages s.tx
              relay.batch_size 300 now).1.map (fun m => (m.id, publish m.id)) } := by
      unfold OutboxRelay.process_batch
      rw [if_neg hemp]
      unfold OutboxRelay.batchRun
      rw [OutboxRelay.process_batch_fold]
      simp
    refine ⟨?_, ?_, ?_, ?_⟩
    · rw [hpb]
    · intro _
      rw [hpb]
    · intro m hm
      rw [hpb]
      exact OutboxRelay.find?_fold_mem relay now publish _ _ m hm
        (OutboxRepository.batch_ids_nodup hnd) hfind
    · intro m hm e he
      rw [hpb]
      have h3 := OutboxRelay.find?_fold_mem relay now publish _ _ m hm
        (OutboxRepository.batch_ids_nodup hnd) hfind
      rw [h3]
      simp [OutboxRelay.rowUpdate, he]

/-- Witness for C5: a batch of two pending rows where publishing the first
fails records both attempts and continues past the failure. -/
theorem c5_relay_failure_isolation_witness :
    (OutboxRelay.process_batch relayFix 50 publishFailOn1 relaySession).attempts
      = [(1, Except.error "boom"), (2, Except.ok ())] := by
  rw [(c5_relay_failure_isolation relayFix 50 publishFailOn1 relaySession
    (by decide)).1]
  decide
